import Mathlib

/-!
Verification development for the SAM.gov → SharePoint synchronization program
(`src/sharepoint_integration/sharepoint_sam.py`).

The embedding below translates the program's data transformation
(`OpportunityTransformer`), the paginated fetch loop
(`SAMGovClient.fetch_all_opportunities`), the attachment helpers
(`SAMGovClient.download_file`, `SharePointClient.add_attachment_rest`), the
dedup-key enumeration (`SharePointClient.get_existing_notice_ids`) and the
orchestration loop (`SyncOrchestrator.sync`) into pure Lean functions.

Network effects are modelled by explicit outcome parameters: each record is
paired with a `RecEnv` that fixes the outcome of its create call and of every
download/upload request, and the fetch loop is parameterised by the function
from (offset, limit) to the page the upstream service returns.  Python
exceptions are modelled with `Except`/`Option`; Python `None` is `Val.none`.
-/

namespace SamSync

/-- Python scalar values as they occur in a transformed field mapping.
`Val.none` is Python's `None`. -/
inductive Val where
  | none
  | str (s : String)
  | bool (b : Bool)
  | num (n : Int)
deriving DecidableEq

/-- Python truthiness (`if v:`) of a `Val`. -/
def pyTruthy : Val → Bool
  | Val.none => false
  | Val.str s => s != ""
  | Val.bool b => b
  | Val.num n => n != 0

/-- Injection of an optional string (a `dict.get` result known to be a string
or `None`) into `Val`. -/
def optStr : Option String → Val
  | none => Val.none
  | some s => Val.str s

/-- Python `f"{x}"` applied to a string-or-None value. -/
def pyFmt : Option String → String
  | none => "None"
  | some s => s

/-- Python `c in s` for a single-character needle: containment over the
string's characters. -/
def pyInStr (c : Char) (s : String) : Bool := s.data.contains c

/-- One `pointOfContact` entry of a source record (fields read by
`get_poc_info`, sharepoint_sam.py lines 394-408). -/
structure POC where
  type : Val := Val.none
  fullName : Val := Val.none
  email : Val := Val.none
  phone : Val := Val.none
  title : Val := Val.none
deriving DecidableEq

/-- One sub-object of `placeOfPerformance` (`city` / `state` / `country`).
`obj name` is a dict whose `"name"` lookup yields `name` (a missing key, and a
missing sub-object defaulted to `{}`, both yield `obj Val.none`); `nonDict` is
a present non-dict value, for which the `isinstance(..., dict)` guard in
`get_place_of_performance` (lines 410-424) fails. -/
inductive PopSub where
  | obj (name : Val)
  | nonDict
deriving DecidableEq

/-- The `placeOfPerformance` object of a source record. -/
structure Pop where
  city : PopSub := PopSub.obj Val.none
  state : PopSub := PopSub.obj Val.none
  country : PopSub := PopSub.obj Val.none
deriving DecidableEq

/-- The `awardee` sub-object of an `award` (guarded by `isinstance` in
`get_award_info`, lines 426-440); same reading as `PopSub`. -/
inductive AwardeeV where
  | obj (name : Val) (location : Val)
  | nonDict
deriving DecidableEq

/-- The `award` object of a source record (fields read by `get_award_info`). -/
structure Award where
  number : Val := Val.none
  amount : Val := Val.none
  date : Option String := none
  awardee : AwardeeV := AwardeeV.obj Val.none Val.none
deriving DecidableEq

/-- A SAM.gov opportunity record, with exactly the fields the program reads
(`OpportunityTransformer.transform`, lines 443-493, and the sync loop, lines
528-560).  An `Option`/default value models the field being absent or `None`;
fields that are only passed through into the mapping are typed `Val`. -/
structure Opportunity where
  title : Option String := none
  noticeId : Option String := none
  solicitationNumber : Val := Val.none
  fullParentPathName : Option String := none
  fullParentPathCode : Val := Val.none
  postedDate : Option String := none
  responseDeadLine : Option String := none
  type : Val := Val.none
  baseType : Val := Val.none
  typeOfSetAside : Option String := none
  naicsCode : Val := Val.none
  classificationCode : Val := Val.none
  active : Val := Val.none
  organizationType : Val := Val.none
  additionalInfoLink : Val := Val.none
  uiLink : Val := Val.none
  description : Val := Val.none
  pointOfContact : List POC := []
  placeOfPerformance : Option Pop := none
  award : Option Award := none
  resourceLinks : List String := []
deriving DecidableEq

/-- The static set-aside lookup table `SETASIDE_CODES`
(sharepoint_sam.py lines 50-69; 18 entries). -/
def SETASIDE_CODES : List (String × String) :=
  [("SBA", "Total Small Business Set-Aside (FAR 19.5)"),
   ("SBP", "Partial Small Business Set-Aside (FAR 19.5)"),
   ("8A", "8(a) Set-Aside (FAR 19.8)"),
   ("8AN", "8(a) Sole Source (FAR 19.8)"),
   ("HZC", "Historically Underutilized Business (HUBZone) Set-Aside (FAR 19.13)"),
   ("HZS", "Historically Underutilized Business (HUBZone) Sole Source (FAR 19.13)"),
   ("SDVOSBC", "Service-Disabled Veteran-Owned Small Business (SDVOSB) Set-Aside (FAR 19.14)"),
   ("SDVOSBS", "Service-Disabled Veteran-Owned Small Business (SDVOSB) Sole Source (FAR 19.14)"),
   ("WOSB", "Women-Owned Small Business (WOSB) Program Set-Aside (FAR 19.15)"),
   ("WOSBSS", "Women-Owned Small Business (WOSB) Program Sole Source (FAR 19.15)"),
   ("EDWOSB", "Economically Disadvantaged WOSB (EDWOSB) Program Set-Aside (FAR 19.15)"),
   ("EDWOSBSS", "Economically Disadvantaged WOSB (EDWOSB) Program Sole Source (FAR 19.15)"),
   ("LAS", "Local Area Set-Aside (FAR 26.2)"),
   ("IEE", "Indian Economic Enterprise (IEE) Set-Aside"),
   ("ISBEE", "Indian Small Business Economic Enterprise (ISBEE) Set-Aside"),
   ("BICiv", "Buy Indian Set-Aside"),
   ("VSA", "Veteran-Owned Small Business Set-Aside"),
   ("VSS", "Veteran-Owned Small Business Sole source")]

/-- `OpportunityTransformer.parse_department_info` (lines 359-375): split the
dot-delimited path; positions 0/1/2 become department/subtier/office; a falsy
input (`None` or `""`) yields all-`None`. -/
def parse_department_info (full_path : Option String) :
    Option String × Option String × Option String :=
  match full_path with
  | none => (none, none, none)
  | some s =>
    if s = "" then (none, none, none)
    else
      let parts := s.splitOn "."
      (parts[0]?, parts[1]?, parts[2]?)

/-- `OpportunityTransformer.format_date` (lines 377-392): falsy input (`None`
or `""`) yields `None`; a string containing `"T"` passes through; otherwise
`"T00:00:00Z"` is appended.  The `try/except` in the source cannot fire on a
string input, so it does not appear here. -/
def format_date (date_str : Option String) : Option String :=
  match date_str with
  | none => none
  | some s =>
    if s = "" then none
    else if pyInStr 'T' s then some s
    else some (s ++ "T00:00:00Z")

/-- `OpportunityTransformer.get_poc_info` (lines 394-408): empty list yields
the empty mapping; otherwise the first entry tagged `"primary"`, defaulting to
the head of the list, supplies the four POC fields. -/
def get_poc_info (poc_list : List POC) : List (String × Val) :=
  match poc_list with
  | [] => []
  | first :: rest =>
    let primary := ((first :: rest).find? (fun p => p.type == Val.str "primary")).getD first
    [("POC_Name", primary.fullName),
     ("POC_Email", primary.email),
     ("POC_Phone", primary.phone),
     ("POC_Title", primary.title)]

/-- Value of `sub.get("name") if isinstance(sub, dict) else None` for a
place-of-performance sub-object. -/
def popSubName : PopSub → Val
  | PopSub.obj name => name
  | PopSub.nonDict => Val.none

/-- `OpportunityTransformer.get_place_of_performance` (lines 410-424). -/
def get_place_of_performance (pop : Option Pop) : List (String × Val) :=
  match pop with
  | none => []
  | some pop =>
    [("PoP_City", popSubName pop.city),
     ("PoP_State", popSubName pop.state),
     ("PoP_Country", popSubName pop.country)]

/-- Value of `awardee.get("name") if isinstance(awardee, dict) else None`. -/
def awardeeName : AwardeeV → Val
  | AwardeeV.obj name _ => name
  | AwardeeV.nonDict => Val.none

/-- Value of `awardee.get("location") if isinstance(awardee, dict) else None`. -/
def awardeeLocation : AwardeeV → Val
  | AwardeeV.obj _ location => location
  | AwardeeV.nonDict => Val.none

/-- `OpportunityTransformer.get_award_info` (lines 426-440). -/
def get_award_info (award : Option Award) : List (String × Val) :=
  match award with
  | none => []
  | some award =>
    [("AwardNumber", award.number),
     ("AwardAmount", award.amount),
     ("AwardDate", optStr (format_date award.date)),
     ("AwardeeName", awardeeName award.awardee),
     ("AwardeeLocation", awardeeLocation award.awardee)]

/-- Python `dict` assignment `d[k] = v`: overwrite in place when the key is
present, append otherwise (insertion order preserved). -/
def updOne (d : List (String × Val)) (k : String) (v : Val) : List (String × Val) :=
  if (d.map Prod.fst).contains k then
    d.map (fun kv => if kv.1 = k then (kv.1, v) else kv)
  else d ++ [(k, v)]

/-- Python `dict.update`: assign every pair of `u` into `d`, in order. -/
def updAll (d : List (String × Val)) (u : List (String × Val)) : List (String × Val) :=
  u.foldl (fun acc kv => updOne acc kv.1 kv.2) d

/-- The `fields` dict literal built first in `transform` (lines 454-476),
including the derived department/subtier/office split and the set-aside
description lookup `SETASIDE_CODES.get(code, code) if set_aside_code else None`
(lines 445-451). -/
def baseFields (opp : Opportunity) : List (String × Val) :=
  let parsed := parse_department_info opp.fullParentPathName
  let set_aside_desc : Val :=
    match opp.typeOfSetAside with
    | some c => if c = "" then Val.none else Val.str ((SETASIDE_CODES.lookup c).getD c)
    | none => Val.none
  [("Title", optStr opp.title),
   ("NoticeId", optStr opp.noticeId),
   ("SolicitationNumber", opp.solicitationNumber),
   ("Department", optStr parsed.1),
   ("Subtier", optStr parsed.2.1),
   ("Office", optStr parsed.2.2),
   ("FullParentPath", optStr opp.fullParentPathName),
   ("FullParentCode", opp.fullParentPathCode),
   ("PostedDate", optStr (format_date opp.postedDate)),
   ("ResponseDeadline", optStr (format_date opp.responseDeadLine)),
   ("Type", opp.type),
   ("BaseType", opp.baseType),
   ("SetAsideCode", optStr opp.typeOfSetAside),
   ("SetAsideDescription", set_aside_desc),
   ("NAICSCode", opp.naicsCode),
   ("ClassificationCode", opp.classificationCode),
   ("Active", opp.active),
   ("OrganizationType", opp.organizationType),
   ("AdditionalInfoLink", opp.additionalInfoLink),
   ("UILink", opp.uiLink),
   ("DescriptionLink", opp.description)]

/-- The tail of `baseFields` after its `Title` and `NoticeId` entries; spelled
out once so that proofs can talk about the part of the base mapping that never
carries the `"NoticeId"` key. -/
def baseRest (opp : Opportunity) : List (String × Val) :=
  let parsed := parse_department_info opp.fullParentPathName
  let set_aside_desc : Val :=
    match opp.typeOfSetAside with
    | some c => if c = "" then Val.none else Val.str ((SETASIDE_CODES.lookup c).getD c)
    | none => Val.none
  [("SolicitationNumber", opp.solicitationNumber),
   ("Department", optStr parsed.1),
   ("Subtier", optStr parsed.2.1),
   ("Office", optStr parsed.2.2),
   ("FullParentPath", optStr opp.fullParentPathName),
   ("FullParentCode", opp.fullParentPathCode),
   ("PostedDate", optStr (format_date opp.postedDate)),
   ("ResponseDeadline", optStr (format_date opp.responseDeadLine)),
   ("Type", opp.type),
   ("BaseType", opp.baseType),
   ("SetAsideCode", optStr opp.typeOfSetAside),
   ("SetAsideDescription", set_aside_desc),
   ("NAICSCode", opp.naicsCode),
   ("ClassificationCode", opp.classificationCode),
   ("Active", opp.active),
   ("OrganizationType", opp.organizationType),
   ("AdditionalInfoLink", opp.additionalInfoLink),
   ("UILink", opp.uiLink),
   ("DescriptionLink", opp.description)]

/-- `OpportunityTransformer.transform` (lines 443-493): the base dict, updated
in turn with the POC, place-of-performance and award mappings, then stripped
of `None` values (`{k: v for k, v in fields.items() if v is not None}`). -/
def transform (opp : Opportunity) : List (String × Val) :=
  (updAll
    (updAll
      (updAll (baseFields opp) (get_poc_info opp.pointOfContact))
      (get_place_of_performance opp.placeOfPerformance))
    (get_award_info opp.award)).filter (fun kv => kv.2 != Val.none)

/-- One page returned by `SAMGovClient.search_opportunities`
(`data.get("opportunitiesData", [])` and `data.get("totalRecords", 0)`). -/
structure PageData where
  opportunitiesData : List Opportunity
  totalRecords : Nat
deriving DecidableEq

/-- The `while True` pagination loop of `SAMGovClient.fetch_all_opportunities`
(lines 142-160), with the upstream service modelled as the function `search`
from (offset, limit) to the returned page.  The loop is given explicit fuel —
the source loop has no iteration bound of its own — and, alongside the
accumulated records, returns the number of page calls issued.  Exhausted fuel
yields `none`. -/
def fetchLoop (search : Nat → Nat → PageData) (limit : Nat) :
    Nat → List Opportunity → Nat → Nat → Option (List Opportunity × Nat)
  | 0, _, _, _ => none
  | fuel + 1, all_opportunities, offset, calls =>
    let data := search offset limit
    let acc := all_opportunities ++ data.opportunitiesData
    let total_records := data.totalRecords
    if acc.length ≥ total_records then some (acc, calls + 1)
    else fetchLoop search limit fuel acc (offset + limit) (calls + 1)

/-- `SAMGovClient.fetch_all_opportunities` (lines 129-162): page size fixed at
`limit = 10`, starting at offset 0 with an empty accumulator.  The posting-date
window only parameterises the query, so it is folded into `search`. -/
def fetch_all_opportunities (search : Nat → Nat → PageData) (fuel : Nat) :
    Option (List Opportunity × Nat) :=
  fetchLoop search 10 fuel [] 0 0

/-- `SAMGovClient.download_file` (lines 164-180): the whole body is wrapped in
`try/except`, returning the response body on success and `None` on any
failure.  `resp` is the outcome of the HTTP GET. -/
def download_file (resp : Except String (List Nat)) : Option (List Nat) :=
  match resp with
  | Except.ok content => some content
  | Except.error _ => none

/-- `SharePointClient.add_attachment_rest` (lines 324-349): the POST is wrapped
in `try/except`, returning `True` on success and `False` on any failure. -/
def add_attachment_rest (resp : Except String Unit) : Bool :=
  match resp with
  | Except.ok _ => true
  | Except.error _ => false

/-- `SharePointClient.get_existing_notice_ids` (lines 287-309): over every item
of the list (all pages concatenated), collect the `fields["NoticeId"]` value
whenever it is present and truthy (`if notice_id:`).  Each item is modelled by
its `fields` mapping. -/
def get_existing_notice_ids (items : List (List (String × Val))) : List Val :=
  items.filterMap (fun fields =>
    match fields.lookup "NoticeId" with
    | some notice_id => if pyTruthy notice_id then some notice_id else none
    | none => none)

/-- Python `notice_id in existing_ids` where `notice_id` is
`opp.get("noticeId")` (a string or `None`) and `existing_ids` is the set built
by `get_existing_notice_ids`. -/
def pyIn (notice_id : Option String) (existing_ids : List Val) : Bool :=
  existing_ids.contains (optStr notice_id)

/-- Outcomes of the external calls made while processing one record: the
result of its `create_list_item` POST (`ok` carries `item["id"]`), and the
result of the HTTP GET / attachment POST for every resource-link index. -/
structure RecEnv where
  createResult : Except String String
  downloadResult : Nat → Except String (List Nat)
  attachResult : Nat → Except String Unit

/-- A list item created in the target store: its store-assigned id, the field
mapping it was created with, and the attachments that were added to it. -/
structure CreatedItem where
  itemId : String
  fields : List (String × Val)
  attachments : List (String × List Nat)
deriving DecidableEq

/-- Outcome of the per-record `try` block of `SyncOrchestrator.sync` (lines
537-560): `item` is the record the store gained (present as soon as the create
call succeeded, even if a later step raised), `ok` tells whether the block ran
to completion (`new_count += 1`) rather than raising (`error_count += 1`). -/
structure RecOutcome where
  item : Option CreatedItem
  ok : Bool

/-- One iteration of the attachment loop (lines 549-554): build the filename
from the notice id and the 1-based index, download, and — when the content is
truthy — attempt the attachment.  Returns the attachment the item gained, if
any.  A failed download yields `None` in the source (`download_file`), a
failed upload yields `False` (`add_attachment_rest`); neither raises. -/
def attachOne (notice_id : Option String) (env : RecEnv) (idx : Nat) :
    Option (String × List Nat) :=
  let filename := pyFmt notice_id ++ "_attachment_" ++ toString (idx + 1) ++ ".pdf"
  match download_file (env.downloadResult idx) with
  | some file_content =>
    if file_content = [] then none
    else if add_attachment_rest (env.attachResult idx) then some (filename, file_content)
    else none
  | none => none

/-- The `for idx, link in enumerate(resource_links)` loop (lines 548-554); the
link value enters only through the download request, which is modelled by
`env.downloadResult idx`. -/
def processAttachments (opp : Opportunity) (env : RecEnv) : List (String × List Nat) :=
  opp.resourceLinks.enum.filterMap (fun p => attachOne opp.noticeId env p.1)

/-- The body of the per-record `try` block (lines 537-556): transform, create
(raises on `createResult` error), log `opp.get('title')[:50]` — which raises
`TypeError` when the title is `None`, after the item has already been created —
then run the attachment loop (which never raises) and count the record as new. -/
def processRecord (download_attachments : Bool) (opp : Opportunity) (env : RecEnv) :
    RecOutcome :=
  let fields := transform opp
  match env.createResult with
  | Except.error _ => ⟨none, false⟩
  | Except.ok item_id =>
    match opp.title with
    | none => ⟨some ⟨item_id, fields, []⟩, false⟩
    | some _ =>
      let attachments := if download_attachments then processAttachments opp env else []
      ⟨some ⟨item_id, fields, attachments⟩, true⟩

/-- Observable outcome of one run of `SyncOrchestrator.sync`: the three
counters of the summary (lines 562-567), the items the target store gained,
and — as an instrumentation of the loop — the field mapping of every
`create_list_item` call that was issued. -/
structure SyncResult where
  newCount : Nat
  skippedCount : Nat
  errorCount : Nat
  created : List CreatedItem
  createCalls : List (List (String × Val))
deriving DecidableEq

/-- One iteration of the orchestrator loop (lines 528-560): skip when the
notice id is already in the existing-key set; otherwise transform, issue the
create call (always reached — `transform` cannot raise), record the store
effect, and bump `new_count` or `error_count` according to whether the block
completed. -/
def syncStep (download_attachments : Bool) (existing_ids : List Val)
    (acc : SyncResult) (p : Opportunity × RecEnv) : SyncResult :=
  if pyIn p.1.noticeId existing_ids then
    { acc with skippedCount := acc.skippedCount + 1 }
  else
    let fields := transform p.1
    let out := processRecord download_attachments p.1 p.2
    { acc with
      createCalls := acc.createCalls ++ [fields]
      created := acc.created ++ out.item.toList
      newCount := acc.newCount + (if out.ok then 1 else 0)
      errorCount := acc.errorCount + (if out.ok then 0 else 1) }

/-- The record-processing phase of `SyncOrchestrator.sync` (lines 524-560):
fold the per-record step over the fetched records, starting from zero
counters.  `existing_ids` is the set loaded once before the loop; each fetched
record is paired with the outcomes of its external calls. -/
def sync (download_attachments : Bool) (existing_ids : List Val)
    (opportunities : List (Opportunity × RecEnv)) : SyncResult :=
  opportunities.foldl (syncStep download_attachments existing_ids) ⟨0, 0, 0, [], []⟩

/-! Concrete fixtures used by witnesses and counterexamples. -/

/-- A record with the given notice id and title and no nested structures. -/
def oppK (k t : String) : Opportunity := { noticeId := some k, title := some t }

/-- A record whose stable key is absent. -/
def oppNoKey : Opportunity := { title := some "keyless record" }

/-- A record whose stable key is present but empty. -/
def oppEmptyKey : Opportunity := { noticeId := some "", title := some "empty key" }

/-- A record whose title is absent. -/
def oppNoTitle : Opportunity := { noticeId := some "NT1", resourceLinks := ["u1", "u2"] }

/-- A record with every nested structure absent. -/
def oppAllAbsent : Opportunity :=
  { title := some "bare", noticeId := some "BARE1", typeOfSetAside := some "WOSB",
    postedDate := some "2025-12-31" }

/-- An environment in which every external call succeeds. -/
def envOk : RecEnv :=
  ⟨Except.ok "1", fun _ => Except.ok [7], fun _ => Except.ok ()⟩

/-- An environment whose create call fails. -/
def envCreateFail : RecEnv :=
  ⟨Except.error "HTTPError 400", fun _ => Except.ok [7], fun _ => Except.ok ()⟩

/-- An environment whose downloads and uploads all fail. -/
def envAttachBad : RecEnv :=
  ⟨Except.ok "2", fun _ => Except.error "timeout", fun _ => Except.error "403"⟩

/-- An environment with the same create outcome as `envAttachBad` but with
every download and upload succeeding. -/
def envAttachOk2 : RecEnv :=
  ⟨Except.ok "2", fun _ => Except.ok [9], fun _ => Except.ok ()⟩

/-- The upstream service of a consistent pagination run: every page reports
`T` total records and returns `min limit (T - offset)` records. -/
def searchT (T : Nat) : Nat → Nat → PageData :=
  fun offset limit => ⟨List.replicate (min limit (T - offset)) {}, T⟩

/-! Dictionary-update lemmas: with fresh keys, `dict.update` is an append. -/

theorem updOne_fresh (d : List (String × Val)) (k : String) (v : Val)
    (h : ((d.map Prod.fst).contains k) = false) : updOne d k v = d ++ [(k, v)] := by
  unfold updOne
  rw [h]
  simp

theorem updAll_of_keys (d u : List (String × Val))
    (hnd : (u.map Prod.fst).Nodup)
    (h : (u.map Prod.fst).all (fun s => !((d.map Prod.fst).contains s)) = true) :
    updAll d u = d ++ u := by
  induction u generalizing d with
  | nil => simp [updAll]
  | cons q u ih =>
    simp only [List.map_cons, List.all_cons, Bool.and_eq_true, Bool.not_eq_true'] at h
    simp only [List.map_cons, List.nodup_cons] at hnd
    have h1 : updOne d q.1 q.2 = d ++ [q] := updOne_fresh d q.1 q.2 h.1
    have step : updAll d (q :: u) = updAll (updOne d q.1 q.2) u := rfl
    have h2 : (u.map Prod.fst).all
        (fun s => !(((d ++ [q]).map Prod.fst).contains s)) = true := by
      simp only [List.all_eq_true, Bool.not_eq_true'] at h ⊢
      intro s hs
      have hds : (d.map Prod.fst).contains s = false := h.2 s hs
      have hsq : s ≠ q.1 := fun e => hnd.1 (e ▸ hs)
      simp only [List.map_append, List.map_cons, List.map_nil,
        List.contains_eq_any_beq, List.any_append, List.any_cons, List.any_nil,
        Bool.or_eq_false_iff] at hds ⊢
      refine ⟨hds, ?_, trivial⟩
      simpa using hsq
    rw [step, h1, ih (d ++ [q]) hnd.2 h2, List.append_assoc, List.singleton_append]

/-! Key lists of the four blocks of `transform` (all hold definitionally). -/

theorem baseFields_keys (opp : Opportunity) :
    (baseFields opp).map Prod.fst
      = ["Title", "NoticeId", "SolicitationNumber", "Department", "Subtier", "Office",
         "FullParentPath", "FullParentCode", "PostedDate", "ResponseDeadline", "Type",
         "BaseType", "SetAsideCode", "SetAsideDescription", "NAICSCode",
         "ClassificationCode", "Active", "OrganizationType", "AdditionalInfoLink",
         "UILink", "DescriptionLink"] := rfl

theorem poc_keys_nil : (get_poc_info []).map Prod.fst = [] := rfl

theorem poc_keys_cons (f : POC) (rest : List POC) :
    (get_poc_info (f :: rest)).map Prod.fst
      = ["POC_Name", "POC_Email", "POC_Phone", "POC_Title"] := rfl

theorem pop_keys_none : (get_place_of_performance none).map Prod.fst = [] := rfl

theorem pop_keys_some (pp : Pop) :
    (get_place_of_performance (some pp)).map Prod.fst
      = ["PoP_City", "PoP_State", "PoP_Country"] := rfl

theorem award_keys_none : (get_award_info none).map Prod.fst = [] := rfl

theorem award_keys_some (aw : Award) :
    (get_award_info (some aw)).map Prod.fst
      = ["AwardNumber", "AwardAmount", "AwardDate", "AwardeeName", "AwardeeLocation"] := rfl

theorem updAll_poc (opp : Opportunity) (l : List POC) :
    updAll (baseFields opp) (get_poc_info l) = baseFields opp ++ get_poc_info l := by
  cases l with
  | nil => simp [get_poc_info, updAll]
  | cons f rest =>
    apply updAll_of_keys
    · rw [poc_keys_cons]; decide
    · rw [poc_keys_cons, baseFields_keys]; decide

theorem updAll_pop (opp : Opportunity) (l : List POC) (p : Option Pop) :
    updAll (baseFields opp ++ get_poc_info l) (get_place_of_performance p)
      = (baseFields opp ++ get_poc_info l) ++ get_place_of_performance p := by
  cases p with
  | none => simp [get_place_of_performance, updAll]
  | some pp =>
    apply updAll_of_keys
    · rw [pop_keys_some]; decide
    · cases l with
      | nil => rw [pop_keys_some, List.map_append, baseFields_keys, poc_keys_nil]; decide
      | cons f rest =>
        rw [pop_keys_some, List.map_append, baseFields_keys, poc_keys_cons]; decide

theorem updAll_award (opp : Opportunity) (l : List POC) (p : Option Pop) (a : Option Award) :
    updAll ((baseFields opp ++ get_poc_info l) ++ get_place_of_performance p)
        (get_award_info a)
      = ((baseFields opp ++ get_poc_info l) ++ get_place_of_performance p)
          ++ get_award_info a := by
  cases a with
  | none => simp [get_award_info, updAll]
  | some aw =>
    apply updAll_of_keys
    · rw [award_keys_some]; decide
    · rw [award_keys_some, List.map_append, List.map_append, baseFields_keys]
      cases p with
      | none =>
        rw [pop_keys_none]
        cases l with
        | nil => rw [poc_keys_nil]; decide
        | cons f rest => rw [poc_keys_cons]; decide
      | some pp =>
        rw [pop_keys_some]
        cases l with
        | nil => rw [poc_keys_nil]; decide
        | cons f rest => rw [poc_keys_cons]; decide

/-- The three `dict.update` calls of `transform` only ever add fresh keys, so
the transformed mapping is the `None`-filtered concatenation of its four
blocks. -/
theorem transform_eq (opp : Opportunity) :
    transform opp
      = (((baseFields opp ++ get_poc_info opp.pointOfContact)
            ++ get_place_of_performance opp.placeOfPerformance)
          ++ get_award_info opp.award).filter (fun kv => kv.2 != Val.none) := by
  unfold transform
  rw [updAll_poc, updAll_pop, updAll_award]

/-! Association-list lookup lemmas, used to read the `"NoticeId"` field out of
a transformed mapping the way the Python code does (`fields.get("NoticeId")`). -/

theorem lookup_cons (k : String) (q : String × Val) (l : List (String × Val)) :
    (q :: l).lookup k = if k = q.1 then some q.2 else l.lookup k := by
  rcases q with ⟨k', v⟩
  by_cases h : k = k'
  · subst h; simp [List.lookup]
  · have hb : (k == k') = false := beq_eq_false_iff_ne.mpr h
    simp [List.lookup, h, hb]

theorem lookup_filter_skip (k : String) (p : String × Val → Bool)
    (pre l : List (String × Val)) (h : ∀ q ∈ pre, q.1 = k → p q = false) :
    ((pre ++ l).filter p).lookup k = (l.filter p).lookup k := by
  induction pre with
  | nil => rfl
  | cons a pre ih =>
    rw [List.cons_append, List.filter_cons]
    by_cases hpa : p a = true
    · have hak : ¬ (k = a.1) := by
        intro e
        have hfa := h a (List.mem_cons_self a pre) e.symm
        rw [hfa] at hpa
        exact Bool.false_ne_true hpa
      rw [if_pos hpa, lookup_cons, if_neg hak]
      exact ih (fun q hq => h q (List.mem_cons_of_mem a hq))
    · rw [if_neg hpa]
      exact ih (fun q hq => h q (List.mem_cons_of_mem a hq))

theorem lookup_filter_none (k : String) (p : String × Val → Bool)
    (l : List (String × Val)) (h : ∀ q ∈ l, q.1 = k → p q = false) :
    ((l.filter p).lookup k) = none := by
  have hs := lookup_filter_skip k p l [] h
  simpa using hs

theorem baseFields_split (opp : Opportunity) :
    baseFields opp
      = ("Title", optStr opp.title) :: ("NoticeId", optStr opp.noticeId)
          :: baseRest opp := rfl

theorem baseRest_keys (opp : Opportunity) :
    (baseRest opp).map Prod.fst
      = ["SolicitationNumber", "Department", "Subtier", "Office", "FullParentPath",
         "FullParentCode", "PostedDate", "ResponseDeadline", "Type", "BaseType",
         "SetAsideCode", "SetAsideDescription", "NAICSCode", "ClassificationCode",
         "Active", "OrganizationType", "AdditionalInfoLink", "UILink",
         "DescriptionLink"] := rfl

theorem baseRest_fst_ne (opp : Opportunity) :
    ∀ q ∈ baseRest opp, q.1 ≠ "NoticeId" := by
  intro q hq
  have hmem := List.mem_map_of_mem Prod.fst hq
  rw [baseRest_keys] at hmem
  have hK : ∀ s ∈ (["SolicitationNumber", "Department", "Subtier", "Office",
      "FullParentPath", "FullParentCode", "PostedDate", "ResponseDeadline", "Type",
      "BaseType", "SetAsideCode", "SetAsideDescription", "NAICSCode",
      "ClassificationCode", "Active", "OrganizationType", "AdditionalInfoLink",
      "UILink", "DescriptionLink"] : List String), s ≠ "NoticeId" := by decide
  exact hK _ hmem

theorem poc_fst_ne (l : List POC) : ∀ q ∈ get_poc_info l, q.1 ≠ "NoticeId" := by
  intro q hq
  have hmem := List.mem_map_of_mem Prod.fst hq
  cases l with
  | nil => rw [poc_keys_nil] at hmem; exact absurd hmem (List.not_mem_nil _)
  | cons f rest =>
    rw [poc_keys_cons] at hmem
    have hK : ∀ s ∈ (["POC_Name", "POC_Email", "POC_Phone", "POC_Title"] : List String),
        s ≠ "NoticeId" := by decide
    exact hK _ hmem

theorem pop_fst_ne (p : Option Pop) :
    ∀ q ∈ get_place_of_performance p, q.1 ≠ "NoticeId" := by
  intro q hq
  have hmem := List.mem_map_of_mem Prod.fst hq
  cases p with
  | none => rw [pop_keys_none] at hmem; exact absurd hmem (List.not_mem_nil _)
  | some pp =>
    rw [pop_keys_some] at hmem
    have hK : ∀ s ∈ (["PoP_City", "PoP_State", "PoP_Country"] : List String),
        s ≠ "NoticeId" := by decide
    exact hK _ hmem

theorem award_fst_ne (a : Option Award) :
    ∀ q ∈ get_award_info a, q.1 ≠ "NoticeId" := by
  intro q hq
  have hmem := List.mem_map_of_mem Prod.fst hq
  cases a with
  | none => rw [award_keys_none] at hmem; exact absurd hmem (List.not_mem_nil _)
  | some aw =>
    rw [award_keys_some] at hmem
    have hK : ∀ s ∈ (["AwardNumber", "AwardAmount", "AwardDate", "AwardeeName",
        "AwardeeLocation"] : List String), s ≠ "NoticeId" := by decide
    exact hK _ hmem

/-- Reading `"NoticeId"` out of a transformed mapping recovers the source
record's notice id: present ids (empty ones included) survive the `None`
filter, an absent id leaves no `"NoticeId"` key at all. -/
theorem lookup_transform (opp : Opportunity) :
    (transform opp).lookup "NoticeId" = Option.map Val.str opp.noticeId := by
  rw [transform_eq, List.append_assoc, List.append_assoc, baseFields_split]
  show ((([("Title", optStr opp.title)]
      ++ (("NoticeId", optStr opp.noticeId)
            :: (baseRest opp ++ (get_poc_info opp.pointOfContact
                  ++ (get_place_of_performance opp.placeOfPerformance
                        ++ get_award_info opp.award))))).filter
        (fun kv => kv.2 != Val.none)).lookup "NoticeId") = _
  rw [lookup_filter_skip "NoticeId" _ [("Title", optStr opp.title)] _
    (by intro q hq hk
        simp only [List.mem_singleton] at hq
        subst hq
        exact absurd hk (show ¬ ("Title" = "NoticeId") by decide))]
  rw [List.filter_cons]
  cases hn : opp.noticeId with
  | some s =>
    rw [if_pos (by simp [optStr])]
    rw [lookup_cons, if_pos rfl]
    simp [optStr]
  | none =>
    rw [if_neg (by simp [optStr])]
    apply lookup_filter_none
    intro q hq hk
    rcases List.mem_append.mp hq with h | h
    · exact absurd hk (baseRest_fst_ne opp q h)
    rcases List.mem_append.mp h with h | h
    · exact absurd hk (poc_fst_ne _ q h)
    rcases List.mem_append.mp h with h | h
    · exact absurd hk (pop_fst_ne _ q h)
    · exact absurd hk (award_fst_ne _ q h)

/-! Closed form of the orchestrator loop: every counter and trace of a run is
a `countP`/`filterMap` over the fetched records. -/

theorem sync_foldl (da : Bool) (E : List Val) (S : List (Opportunity × RecEnv)) :
    ∀ acc : SyncResult,
      S.foldl (syncStep da E) acc =
        { newCount := acc.newCount
            + S.countP (fun p => !pyIn p.1.noticeId E && (processRecord da p.1 p.2).ok),
          skippedCount := acc.skippedCount + S.countP (fun p => pyIn p.1.noticeId E),
          errorCount := acc.errorCount
            + S.countP (fun p => !pyIn p.1.noticeId E && !(processRecord da p.1 p.2).ok),
          created := acc.created
            ++ S.filterMap (fun p =>
                if pyIn p.1.noticeId E then none else (processRecord da p.1 p.2).item),
          createCalls := acc.createCalls
            ++ S.filterMap (fun p =>
                if pyIn p.1.noticeId E then none else some (transform p.1)) } := by
  induction S with
  | nil => intro acc; simp
  | cons p S ih =>
    intro acc
    rw [List.foldl_cons, ih]
    by_cases hskip : pyIn p.1.noticeId E
    · simp only [syncStep, hskip, if_true, List.countP_cons, List.filterMap_cons,
        Bool.not_true, Bool.false_and, if_pos hskip]
      simp [hskip, Nat.add_comm, Nat.add_assoc, Nat.add_left_comm]
    · by_cases hok : (processRecord da p.1 p.2).ok
      · simp only [syncStep, hskip, if_false, List.countP_cons, List.filterMap_cons,
          if_neg hskip]
        cases hit : (processRecord da p.1 p.2).item <;>
          simp [hskip, hok, hit, Nat.add_comm, Nat.add_assoc, Nat.add_left_comm]
      · simp only [syncStep, List.countP_cons, List.filterMap_cons, if_neg hskip]
        cases hit : (processRecord da p.1 p.2).item <;>
          simp [hskip, hok, hit, Nat.add_comm, Nat.add_assoc, Nat.add_left_comm]

theorem sync_eq (da : Bool) (E : List Val) (S : List (Opportunity × RecEnv)) :
    sync da E S =
      { newCount := S.countP (fun p => !pyIn p.1.noticeId E && (processRecord da p.1 p.2).ok),
        skippedCount := S.countP (fun p => pyIn p.1.noticeId E),
        errorCount :=
          S.countP (fun p => !pyIn p.1.noticeId E && !(processRecord da p.1 p.2).ok),
        created := S.filterMap (fun p =>
            if pyIn p.1.noticeId E then none else (processRecord da p.1 p.2).item),
        createCalls := S.filterMap (fun p =>
            if pyIn p.1.noticeId E then none else some (transform p.1)) } := by
  rw [sync, sync_foldl]
  simp

/-! Convergence of the pagination loop under a consistent upstream service. -/

theorem fetchLoop_spec (search : Nat → Nat → PageData) (L T : Nat) (hL : 0 < L)
    (hpage : ∀ offset, (search offset L).totalRecords = T ∧
        (search offset L).opportunitiesData.length = min L (T - offset)) :
    ∀ fuel acc offset calls, acc.length = offset → offset < T → T - offset ≤ fuel →
      ∃ recs, fetchLoop search L fuel acc offset calls
            = some (recs, calls + ((T - offset - 1) / L + 1))
          ∧ recs.length = T := by
  intro fuel
  induction fuel with
  | zero => intro acc offset calls _ hlt hfuel; omega
  | succ fuel ih =>
    intro acc offset calls hlen hlt hfuel
    have hp := hpage offset
    by_cases hle : T - offset ≤ L
    · have hmin : min L (T - offset) = T - offset := by omega
      have hlen' : (acc ++ (search offset L).opportunitiesData).length = T := by
        rw [List.length_append, hp.2, hmin]; omega
      refine ⟨acc ++ (search offset L).opportunitiesData, ?_, hlen'⟩
      have hdiv : (T - offset - 1) / L = 0 := Nat.div_eq_of_lt (by omega)
      simp only [fetchLoop]
      rw [if_pos (by rw [hlen', hp.1]), hdiv]
    · have hmin : min L (T - offset) = L := by omega
      have hlen' : (acc ++ (search offset L).opportunitiesData).length = offset + L := by
        rw [List.length_append, hp.2, hmin, hlen]
      have hcond : ¬ ((acc ++ (search offset L).opportunitiesData).length
          ≥ (search offset L).totalRecords) := by
        rw [hlen', hp.1]; omega
      obtain ⟨recs, hrec, hreclen⟩ :=
        ih (acc ++ (search offset L).opportunitiesData) (offset + L) (calls + 1)
          hlen' (by omega) (by omega)
      refine ⟨recs, ?_, hreclen⟩
      have harith : (T - offset - 1) / L = (T - (offset + L) - 1) / L + 1 := by
        have h1 : T - offset - 1 = (T - (offset + L) - 1) + L := by omega
        rw [h1, Nat.add_div_right _ hL]
      have heq : calls + 1 + ((T - (offset + L) - 1) / L + 1)
          = calls + ((T - offset - 1) / L + 1) := by
        rw [harith]; omega
      simp only [fetchLoop]
      rw [if_neg hcond, hrec, heq]

/-- A `filterMap` whose function either agrees with `g` or yields `none`
produces a sublist of the `filterMap` over `g`. -/
theorem filterMap_sublist_of {α β : Type} (f g : α → Option β)
    (h : ∀ a, f a = none ∨ f a = g a) (l : List α) :
    List.Sublist (l.filterMap f) (l.filterMap g) := by
  induction l with
  | nil => exact List.Sublist.refl _
  | cons a l ih =>
    rcases h a with ha | ha
    · cases hg : g a with
      | none => simpa [List.filterMap_cons, ha, hg] using ih
      | some b =>
        simp only [List.filterMap_cons, ha, hg]
        exact ih.cons b
    · cases hg : g a with
      | none => simpa [List.filterMap_cons, ha, hg] using ih
      | some b =>
        simp only [List.filterMap_cons, ha, hg]
        exact ih.cons₂ b

/-- A record counted as new was created with exactly its transformed fields. -/
theorem processRecord_ok_item (da : Bool) (opp : Opportunity) (env : RecEnv)
    (h : (processRecord da opp env).ok = true) :
    ∃ it, (processRecord da opp env).item = some it ∧ it.fields = transform opp := by
  cases hcr : env.createResult with
  | error e => simp [processRecord, hcr] at h
  | ok item_id =>
    cases ht : opp.title with
    | none => simp [processRecord, hcr, ht] at h
    | some t =>
      refine ⟨⟨item_id, transform opp,
        if da then processAttachments opp env else []⟩, ?_, rfl⟩
      simp [processRecord, hcr, ht]

/-- C8: `format_date` passes a string through unchanged when it contains a
`'T'` time component and otherwise appends `"T00:00:00Z"`; absent or empty
input yields unset; in particular `"2025-12-31"` gains the midnight suffix and
the already-ISO string `"2026-01-26T16:00:00-05:00"` is unchanged. -/
theorem claim_C8 :
    format_date none = none ∧
    format_date (some "") = none ∧
    (∀ s : String, s ≠ "" → pyInStr 'T' s → format_date (some s) = some s) ∧
    (∀ s : String, s ≠ "" → ¬ pyInStr 'T' s →
      format_date (some s) = some (s ++ "T00:00:00Z")) ∧
    format_date (some "2025-12-31") = some "2025-12-31T00:00:00Z" ∧
    format_date (some "2026-01-26T16:00:00-05:00")
      = some "2026-01-26T16:00:00-05:00" := by
  refine ⟨rfl, rfl, ?_, ?_, by decide, by decide⟩
  · intro s hs ht
    simp [format_date, hs, ht]
  · intro s hs ht
    simp [format_date, hs, ht]

theorem claim_C8_witness :
    format_date (some "2025-12-31") = some ("2025-12-31" ++ "T00:00:00Z") ∧
    format_date (some "2026-01-26T16:00:00-05:00")
      = some "2026-01-26T16:00:00-05:00" :=
  ⟨claim_C8.2.2.2.1 "2025-12-31" (by decide) (by decide),
   claim_C8.2.2.1 "2026-01-26T16:00:00-05:00" (by decide) (by decide)⟩

/-- C2: on a record whose point-of-contact list is empty and whose
place-of-performance and award are absent, `transform` returns exactly the
`None`-stripped base mapping of the top-level scalar fields; the three nested
blocks contribute nothing.  (`transform` is a total function of the embedding:
no combination of present/absent nested structures can make it raise.) -/
theorem claim_C2 (opp : Opportunity)
    (hpoc : opp.pointOfContact = [])
    (hpop : opp.placeOfPerformance = none)
    (haw : opp.award = none) :
    transform opp = (baseFields opp).filter (fun kv => kv.2 != Val.none) := by
  rw [transform_eq, hpoc, hpop, haw]
  simp [get_poc_info, get_place_of_performance, get_award_info]

theorem claim_C2_witness :
    transform oppAllAbsent
      = (baseFields oppAllAbsent).filter (fun kv => kv.2 != Val.none) :=
  claim_C2 oppAllAbsent rfl rfl rfl

/-- C6: a transformed mapping never binds a key to `Val.none`, and it contains
the `NoticeId` entry whenever the source record's notice id is present. -/
theorem claim_C6 (opp : Opportunity) :
    (∀ kv ∈ transform opp, kv.2 ≠ Val.none) ∧
    (∀ s : String, opp.noticeId = some s → ("NoticeId", Val.str s) ∈ transform opp) := by
  constructor
  · intro kv hkv
    simp only [transform] at hkv
    have hp := (List.mem_filter.mp hkv).2
    exact bne_iff_ne.mp hp
  · intro s hs
    rw [transform_eq, List.mem_filter]
    constructor
    · apply List.mem_append_left
      apply List.mem_append_left
      apply List.mem_append_left
      rw [baseFields_split, hs]
      exact List.mem_cons_of_mem _ (List.mem_cons_self _ _)
    · exact bne_iff_ne.mpr (fun hcontra => Val.noConfusion hcontra)

theorem claim_C6_witness : ("NoticeId", Val.str "BARE1") ∈ transform oppAllAbsent :=
  (claim_C6 oppAllAbsent).2 "BARE1" rfl

/-- C9: every fetched record increments exactly one of the three counters, so
a run's `new + skipped + errors` equals the number of fetched records. -/
theorem claim_C9 (da : Bool) (E : List Val) (S : List (Opportunity × RecEnv)) :
    (sync da E S).newCount + (sync da E S).skippedCount + (sync da E S).errorCount
      = S.length := by
  rw [sync_eq]
  show S.countP (fun p => !pyIn p.1.noticeId E && (processRecord da p.1 p.2).ok)
      + S.countP (fun p => pyIn p.1.noticeId E)
      + S.countP (fun p => !pyIn p.1.noticeId E && !(processRecord da p.1 p.2).ok)
      = S.length
  induction S with
  | nil => rfl
  | cons p S ih =>
    simp only [List.countP_cons, List.length_cons]
    by_cases hskip : pyIn p.1.noticeId E
    · simp [hskip]
      omega
    · have hskip' : pyIn p.1.noticeId E = false := by simpa using hskip
      by_cases hok : (processRecord da p.1 p.2).ok
      · simp [hskip', hok]
        omega
      · have hok' : (processRecord da p.1 p.2).ok = false := by simpa using hok
        simp [hskip', hok']
        omega

/-- C10: a record whose stable key is new but whose title is absent is
created in the store (the create call is issued with its transformed fields
and the store gains the item), yet the success log's `opp.get('title')[:50]`
raises before the attachment loop, so the run counts the record as an error,
not as new, and the created item gains no attachments. -/
theorem claim_C10 (opp : Opportunity) (env : RecEnv) (E : List Val) (item_id : String)
    (hnew : pyIn opp.noticeId E = false)
    (htitle : opp.title = none)
    (hcreate : env.createResult = Except.ok item_id) :
    sync true E [(opp, env)]
      = ⟨0, 0, 1, [⟨item_id, transform opp, []⟩], [transform opp]⟩ := by
  have hpr : processRecord true opp env = ⟨some ⟨item_id, transform opp, []⟩, false⟩ := by
    simp [processRecord, hcreate, htitle]
  rw [sync_eq]
  simp [hnew, hpr]

theorem claim_C10_witness :
    sync true [] [(oppNoTitle, envOk)]
      = ⟨0, 0, 1, [⟨"1", transform oppNoTitle, []⟩], [transform oppNoTitle]⟩ :=
  claim_C10 oppNoTitle envOk [] "1" rfl rfl rfl

/-- C5: per-record isolation — a record whose processing raises (here: one
that is not skipped and whose per-record block fails) contributes exactly one
to `errors`, while every record before and after it is processed exactly as it
would be on its own: the loop is never aborted, and the failing record itself
adds nothing to `new` or `skipped`. -/
theorem claim_C5 (da : Bool) (E : List Val) (S₁ S₂ : List (Opportunity × RecEnv))
    (p : Opportunity × RecEnv)
    (hns : pyIn p.1.noticeId E = false)
    (herr : (processRecord da p.1 p.2).ok = false) :
    (sync da E (S₁ ++ p :: S₂)).errorCount
        = (sync da E S₁).errorCount + 1 + (sync da E S₂).errorCount ∧
    (sync da E (S₁ ++ p :: S₂)).newCount
        = (sync da E S₁).newCount + (sync da E S₂).newCount ∧
    (sync da E (S₁ ++ p :: S₂)).skippedCount
        = (sync da E S₁).skippedCount + (sync da E S₂).skippedCount ∧
    (sync da E (S₁ ++ p :: S₂)).created
        = (sync da E S₁).created ++ (processRecord da p.1 p.2).item.toList
            ++ (sync da E S₂).created := by
  simp only [sync_eq]
  refine ⟨?_, ?_, ?_, ?_⟩
  · show (S₁ ++ p :: S₂).countP _ = S₁.countP _ + 1 + S₂.countP _
    rw [List.countP_append, List.countP_cons]
    simp [hns, herr]
    omega
  · show (S₁ ++ p :: S₂).countP _ = S₁.countP _ + S₂.countP _
    rw [List.countP_append, List.countP_cons]
    simp [hns, herr]
  · show (S₁ ++ p :: S₂).countP _ = S₁.countP _ + S₂.countP _
    rw [List.countP_append, List.countP_cons]
    simp [hns]
  · show (S₁ ++ p :: S₂).filterMap _
        = S₁.filterMap _ ++ (processRecord da p.1 p.2).item.toList ++ S₂.filterMap _
    rw [List.filterMap_append, List.filterMap_cons, if_neg (by simp [hns])]
    cases hit : (processRecord da p.1 p.2).item <;> simp [hit]

theorem claim_C5_witness :
    (sync true [] ([(oppK "K1" "t1", envOk), (oppK "K2" "t2", envOk)]
        ++ (oppK "K3" "t3", envCreateFail)
          :: [(oppK "K4" "t4", envOk), (oppK "K5" "t5", envOk)])).errorCount
      = (sync true [] [(oppK "K1" "t1", envOk), (oppK "K2" "t2", envOk)]).errorCount + 1
        + (sync true [] [(oppK "K4" "t4", envOk), (oppK "K5" "t5", envOk)]).errorCount :=
  (claim_C5 true [] [(oppK "K1" "t1", envOk), (oppK "K2" "t2", envOk)]
    [(oppK "K4" "t4", envOk), (oppK "K5" "t5", envOk)]
    (oppK "K3" "t3", envCreateFail) rfl rfl).1

/-- C7: attachment-pipeline failures are recovered and silent — a failed
download yields an absent value (`attachOne` gives `none`, nothing is raised),
a failed upload yields boolean `False`; the record's success flag (and hence
the run's error counter), the presence of the created item, and its created
fields are unchanged under any download/upload outcomes, and the outcome of
one resource link never affects another link of the same record. -/
theorem claim_C7 (da : Bool) (opp : Opportunity) (env env' : RecEnv) (i : Nat)
    (e e' : String) :
    (env.downloadResult i = Except.error e → attachOne opp.noticeId env i = none) ∧
    (env.attachResult i = Except.error e' →
      add_attachment_rest (env.attachResult i) = false) ∧
    (env'.createResult = env.createResult →
      (processRecord da opp env').ok = (processRecord da opp env).ok ∧
      ((processRecord da opp env').item).isSome = ((processRecord da opp env).item).isSome ∧
      Option.map CreatedItem.fields ((processRecord da opp env').item)
        = Option.map CreatedItem.fields ((processRecord da opp env).item) ∧
      (∀ E : List Val,
        (sync da E [(opp, env')]).errorCount = (sync da E [(opp, env)]).errorCount)) ∧
    (env'.downloadResult i = env.downloadResult i →
      env'.attachResult i = env.attachResult i →
      attachOne opp.noticeId env' i = attachOne opp.noticeId env i) := by
  refine ⟨?_, ?_, ?_, ?_⟩
  · intro h
    simp [attachOne, download_file, h]
  · intro h
    simp [add_attachment_rest, h]
  · intro hc
    have hok : (processRecord da opp env').ok = (processRecord da opp env).ok := by
      cases hcr : env.createResult with
      | error err => simp [processRecord, hc, hcr]
      | ok item_id => cases ht : opp.title <;> simp [processRecord, hc, hcr, ht]
    refine ⟨hok, ?_, ?_, ?_⟩
    · cases hcr : env.createResult with
      | error err => simp [processRecord, hc, hcr]
      | ok item_id => cases ht : opp.title <;> simp [processRecord, hc, hcr, ht]
    · cases hcr : env.createResult with
      | error err => simp [processRecord, hc, hcr]
      | ok item_id => cases ht : opp.title <;> simp [processRecord, hc, hcr, ht]
    · intro E
      simp only [sync_eq]
      show List.countP _ _ = List.countP _ _
      simp [List.countP_cons, hok]
  · intro h1 h2
    simp [attachOne, h1, h2]

theorem claim_C7_witness :
    attachOne (oppK "A1" "t").noticeId envAttachBad 0 = none ∧
    add_attachment_rest (envAttachBad.attachResult 0) = false ∧
    (processRecord true (oppK "A1" "t") envAttachOk2).ok
      = (processRecord true (oppK "A1" "t") envAttachBad).ok :=
  ⟨(claim_C7 true (oppK "A1" "t") envAttachBad envAttachOk2 0 "timeout" "403").1 rfl,
   (claim_C7 true (oppK "A1" "t") envAttachBad envAttachOk2 0 "timeout" "403").2.1 rfl,
   ((claim_C7 true (oppK "A1" "t") envAttachBad envAttachOk2 0 "timeout" "403").2.2.1
     rfl).1⟩

/-- C1 counterexample: the dedup set is loaded once and never updated during
the run, so when the fetched list itself contains two records with the same
stable key `"A"` (not present in the empty existing-key set), the run issues
two create-item calls that both carry stable key `"A"`. -/
theorem claim_C1_counterexample :
    ((sync true [] [(oppK "A" "t", envOk), (oppK "A" "t", envOk)]).createCalls.map
        (fun fields => fields.lookup "NoticeId"))
      = [some (Val.str "A"), some (Val.str "A")] ∧
    ¬ ((sync true [] [(oppK "A" "t", envOk), (oppK "A" "t", envOk)]).createCalls.map
        (fun fields => fields.lookup "NoticeId")).Nodup := by
  constructor
  · decide
  · decide

/-- C1 amended: in one run of `sync`, create-item calls are issued exactly for
the non-skipped records, and provided the fetched list contains no two records
with the same present stable key, no two create-item calls carry the same
stable key. -/
theorem claim_C1_amended (da : Bool) (E : List Val) (S : List (Opportunity × RecEnv))
    (hnd : (S.filterMap (fun p => p.1.noticeId)).Nodup) :
    ((sync da E S).createCalls.filterMap (fun fields => fields.lookup "NoticeId")).Nodup := by
  rw [sync_eq]
  show ((S.filterMap (fun p =>
      if pyIn p.1.noticeId E then none else some (transform p.1))).filterMap
      (fun fields => fields.lookup "NoticeId")).Nodup
  rw [List.filterMap_filterMap]
  have hfun : ∀ p : Opportunity × RecEnv,
      ((if pyIn p.1.noticeId E then none else some (transform p.1)).bind
          (fun fields => fields.lookup "NoticeId"))
        = (if pyIn p.1.noticeId E then none else Option.map Val.str p.1.noticeId) := by
    intro p
    by_cases h : pyIn p.1.noticeId E
    · simp [h]
    · simp [h, lookup_transform]
  rw [List.filterMap_congr (fun p _ => hfun p)]
  have hsub : List.Sublist
      (S.filterMap (fun p =>
        if pyIn p.1.noticeId E then none else Option.map Val.str p.1.noticeId))
      (S.filterMap (fun p => Option.map Val.str p.1.noticeId)) := by
    apply filterMap_sublist_of
    intro p
    by_cases h : pyIn p.1.noticeId E
    · exact Or.inl (by simp [h])
    · exact Or.inr (by simp [h])
  apply List.Nodup.sublist hsub
  have hmap : S.filterMap (fun p => Option.map Val.str p.1.noticeId)
      = (S.filterMap (fun p => p.1.noticeId)).map Val.str := by
    rw [List.map_filterMap]
  rw [hmap]
  exact hnd.map (fun a b hab => Val.str.inj hab)

theorem claim_C1_amended_witness :
    ((sync true [] [(oppK "A" "ta", envOk), (oppK "B" "tb", envOk)]).createCalls.filterMap
        (fun fields => fields.lookup "NoticeId")).Nodup :=
  claim_C1_amended true [] [(oppK "A" "ta", envOk), (oppK "B" "tb", envOk)] (by decide)

/-- C3 counterexample: with an upstream service that consistently reports
`totalRecords = 0` (and, as hypothesised, returns `min L (T - offset) = 0`
records per page), `fetch_all_opportunities` still issues one page call — the
loop must fetch a first page to learn the total — and not `ceil(0/10) = 0`
calls as claimed; it does return exactly `0` records. -/
theorem claim_C3_counterexample :
    fetch_all_opportunities (fun _ _ => ⟨[], 0⟩) 1 = some ([], 1) ∧
    ¬ (1 = (0 + 10 - 1) / 10) := by
  constructor
  · rfl
  · decide

/-- C3 amended: under the hypothesis that every page reports the same total
`T` and returns `min L (T - offset)` records, the pagination loop issues
exactly `max 1 (ceil (T / L))` page calls — one call even when `T = 0` — and
returns exactly `T` records.  (`fetch_all_opportunities` runs this loop with
the source's fixed page size `L = 10`.) -/
theorem claim_C3_amended (search : Nat → Nat → PageData) (L T fuel : Nat)
    (hL : 0 < L)
    (hpage : ∀ offset, (search offset L).totalRecords = T ∧
        (search offset L).opportunitiesData.length = min L (T - offset))
    (hfuel0 : 0 < fuel) (hfuelT : T ≤ fuel) :
    ∃ recs calls, fetchLoop search L fuel [] 0 0 = some (recs, calls)
      ∧ recs.length = T ∧ calls = max 1 ((T + L - 1) / L) := by
  by_cases hT : T = 0
  · subst hT
    obtain ⟨n, rfl⟩ : ∃ n, fuel = n + 1 := ⟨fuel - 1, by omega⟩
    refine ⟨[] ++ (search 0 L).opportunitiesData, 1, ?_, ?_, ?_⟩
    · simp only [fetchLoop]
      rw [if_pos (by rw [(hpage 0).1]; exact Nat.zero_le _)]
    · simp [(hpage 0).2]
    · have hdiv : (0 + L - 1) / L = 0 := Nat.div_eq_of_lt (by omega)
      rw [hdiv]
      exact (max_eq_left (Nat.zero_le 1)).symm
  · have hT0 : 0 < T := by omega
    obtain ⟨recs, hr, hlen⟩ :=
      fetchLoop_spec search L T hL hpage fuel [] 0 0 rfl hT0 (by omega)
    refine ⟨recs, 0 + ((T - 0 - 1) / L + 1), hr, hlen, ?_⟩
    have h1 : (T + L - 1) / L = (T - 1) / L + 1 := by
      have h2 : T + L - 1 = (T - 1) + L := by omega
      rw [h2, Nat.add_div_right _ hL]
    rw [h1, max_eq_right (Nat.le_add_left 1 _)]
    simp only [Nat.sub_zero, Nat.zero_add]

theorem claim_C3_amended_witness :
    ∃ recs calls, fetchLoop (searchT 21) 10 21 [] 0 0 = some (recs, calls)
      ∧ recs.length = 21 ∧ calls = max 1 ((21 + 10 - 1) / 10) :=
  claim_C3_amended (searchT 21) 10 21 21 (by decide)
    (fun offset => ⟨rfl, by simp [searchT]⟩) (by decide) (by decide)

/-- C4 counterexample: a record whose stable key is absent (or empty) is
created without an enumerable `NoticeId`, so the store's key enumeration after
the first run returns nothing for it and an immediate second run with
`E' = E ∪ {keys created}` creates it again — the claimed second-run `new = 0`
fails for exactly the absent-key records the claim insists on covering. -/
theorem claim_C4_counterexample :
    (sync true [] [(oppNoKey, envOk)]).newCount = 1 ∧
    (sync true
        ([] ++ get_existing_notice_ids
          ((sync true [] [(oppNoKey, envOk)]).created.map CreatedItem.fields))
        [(oppNoKey, envOk)]).newCount = 1 ∧
    (sync true
        ([] ++ get_existing_notice_ids
          ((sync true [] [(oppEmptyKey, envOk)]).created.map CreatedItem.fields))
        [(oppEmptyKey, envOk)]).newCount = 1 := by
  refine ⟨?_, ?_, ?_⟩ <;> decide

/-- C4 amended: when no per-record error occurs, one run counts
`new = |{r ∈ S : key(r) ∉ E}|` and `skipped = |{r ∈ S : key(r) ∈ E}|`, for
every record list `S`, absent-key records included; and — under the additional
proviso, scoped to this conjunct only, that every record of `S` carries a
present, non-empty stable key — a second run over the same records, with the
existing-key set extended by the keys the store enumerates from the created
items, creates nothing. -/
theorem claim_C4_amended (da : Bool) (E : List Val) (S S₂ : List (Opportunity × RecEnv))
    (hok : ∀ p ∈ S, (processRecord da p.1 p.2).ok = true)
    (hS₂ : S₂.map Prod.fst = S.map Prod.fst) :
    (sync da E S).newCount = S.countP (fun p => !pyIn p.1.noticeId E) ∧
    (sync da E S).skippedCount = S.countP (fun p => pyIn p.1.noticeId E) ∧
    ((∀ p ∈ S, ∃ s, p.1.noticeId = some s ∧ s ≠ "") →
      (sync da (E ++ get_existing_notice_ids
          ((sync da E S).created.map CreatedItem.fields)) S₂).newCount = 0) := by
  refine ⟨?_, ?_, fun hkeys => ?_⟩
  · rw [sync_eq]
    show S.countP (fun p => !pyIn p.1.noticeId E && (processRecord da p.1 p.2).ok)
        = S.countP (fun p => !pyIn p.1.noticeId E)
    apply List.countP_congr
    intro p hp
    rw [hok p hp]
    simp
  · rw [sync_eq]
  · set ids := get_existing_notice_ids
      ((sync da E S).created.map CreatedItem.fields) with hids
    rw [sync_eq]
    show S₂.countP (fun p =>
        !pyIn p.1.noticeId (E ++ ids) && (processRecord da p.1 p.2).ok) = 0
    apply List.countP_eq_zero.mpr
    intro p2 hp2
    have hmem : p2.1 ∈ S.map Prod.fst := by
      rw [← hS₂]
      exact List.mem_map_of_mem _ hp2
    obtain ⟨p, hpS, hpe⟩ := List.mem_map.mp hmem
    obtain ⟨s, hs, hs0⟩ := hkeys p hpS
    have hmem2 : Val.str s ∈ E ++ ids := by
      by_cases hE : pyIn p.1.noticeId E
      · apply List.mem_append_left
        rw [hs] at hE
        simpa [pyIn, optStr] using hE
      · apply List.mem_append_right
        have hE' : pyIn p.1.noticeId E = false := by simpa using hE
        obtain ⟨it, hit, hfld⟩ := processRecord_ok_item da p.1 p.2 (hok p hpS)
        have hmemc : it ∈ (sync da E S).created := by
          rw [sync_eq]
          show it ∈ S.filterMap (fun p =>
            if pyIn p.1.noticeId E then none else (processRecord da p.1 p.2).item)
          apply List.mem_filterMap.mpr
          refine ⟨p, hpS, ?_⟩
          rw [if_neg (by simp [hE'])]
          exact hit
        have hmemf : transform p.1 ∈ (sync da E S).created.map CreatedItem.fields := by
          have hmapped := List.mem_map_of_mem CreatedItem.fields hmemc
          rwa [hfld] at hmapped
        rw [hids]
        unfold get_existing_notice_ids
        apply List.mem_filterMap.mpr
        refine ⟨transform p.1, hmemf, ?_⟩
        rw [lookup_transform, hs]
        simp [pyTruthy, hs0]
    have hin : pyIn p2.1.noticeId (E ++ ids) = true := by
      rw [← hpe, hs]
      simpa [pyIn, optStr] using hmem2
    simp [hin]

theorem claim_C4_witness :
    (sync true [] [(oppK "W1" "w", envOk)]).newCount
        = [(oppK "W1" "w", envOk)].countP (fun p => !pyIn p.1.noticeId []) ∧
    (sync true [] [(oppK "W1" "w", envOk)]).skippedCount
        = [(oppK "W1" "w", envOk)].countP (fun p => pyIn p.1.noticeId []) ∧
    (sync true ([] ++ get_existing_notice_ids
        ((sync true [] [(oppK "W1" "w", envOk)]).created.map CreatedItem.fields))
      [(oppK "W1" "w", envOk)]).newCount = 0 := by
  have h := claim_C4_amended true [] [(oppK "W1" "w", envOk)] [(oppK "W1" "w", envOk)]
    (by intro p hp
        simp only [List.mem_singleton] at hp
        subst hp
        decide)
    rfl
  exact ⟨h.1, h.2.1, h.2.2
    (by intro p hp
        simp only [List.mem_singleton] at hp
        subst hp
        exact ⟨"W1", rfl, by decide⟩)⟩

end SamSync
